import Mathlib

/-!
Shallow embedding of the active-recall quiz core
(`src/src/components/ActiveRecallApp.tsx`): the fixed word data, the
phase state machine (`intro → study → distract → recall → results`),
the countdown tick handler, selection toggling, and the scoring
computation performed by `submit`.
-/

namespace ActiveRecall

/-- An entry of the fixed target word list `WORDS`:
`{ word, lang, pos }` in the source. -/
structure WordEntry where
  word : String
  lang : String
  pos : Nat
deriving DecidableEq, Repr

/-- An entry of the fixed decoy list `FALSE_POSITIVES`: `{ word, lang }`. -/
structure Decoy where
  word : String
  lang : String
deriving DecidableEq, Repr

/-- The fixed 15-word target list `WORDS` from the source. -/
def WORDS : List WordEntry :=
  [⟨"Apple", "EN", 1⟩,
   ⟨"Hund", "SV", 2⟩,
   ⟨"Memory", "EN", 3⟩,
   ⟨"Blå", "SV", 4⟩,
   ⟨"River", "EN", 5⟩,
   ⟨"Stjärna", "SV", 6⟩,
   ⟨"Garden", "EN", 7⟩,
   ⟨"Flicka", "SV", 8⟩,
   ⟨"Thunder", "EN", 9⟩,
   ⟨"Skog", "SV", 10⟩,
   ⟨"Candle", "EN", 11⟩,
   ⟨"Snö", "SV", 12⟩,
   ⟨"Journey", "EN", 13⟩,
   ⟨"Fågel", "SV", 14⟩,
   ⟨"Horizon", "EN", 15⟩]

/-- The fixed 10-word decoy list `FALSE_POSITIVES` from the source. -/
def FALSE_POSITIVES : List Decoy :=
  [⟨"Forest", "EN"⟩,
   ⟨"Lampa", "SV"⟩,
   ⟨"Ocean", "EN"⟩,
   ⟨"Kärlekn", "SV"⟩,
   ⟨"Shadow", "EN"⟩,
   ⟨"Träd", "SV"⟩,
   ⟨"Flame", "EN"⟩,
   ⟨"Himmel", "SV"⟩,
   ⟨"Pebble", "EN"⟩,
   ⟨"Natt", "SV"⟩]

/-- Source: `STUDY_TIME = 40` seconds. -/
def STUDY_TIME : Nat := 40

/-- Source: `DISTRACT_TIME = 300` seconds. -/
def DISTRACT_TIME : Nat := 300

/-- A point of the fixed `EBBINGHAUS` reference curve. -/
structure EbbPoint where
  label : String
  retention : Nat
deriving DecidableEq, Repr

/-- The fixed `EBBINGHAUS` reference decay curve from the source. -/
def EBBINGHAUS : List EbbPoint :=
  [⟨"0 min", 100⟩,
   ⟨"5 min", 58⟩,
   ⟨"20 min", 44⟩,
   ⟨"1 hr", 36⟩,
   ⟨"1 day", 28⟩,
   ⟨"1 wk", 23⟩]

/-- A recall-grid item (`WordItem` in the source): a word tagged with
`isTarget`; decoys carry no `pos`. -/
structure WordItem where
  word : String
  lang : String
  pos : Option Nat
  isTarget : Bool
deriving DecidableEq, Repr

/-- A scored target word (`MatchedWord` in the source). -/
structure MatchedWord where
  word : String
  lang : String
  pos : Nat
  recalled : Bool
deriving DecidableEq, Repr

/-- A point of the results forgetting curve: an `EBBINGHAUS` point with
an optional observed `audience` retention. -/
structure ForgetPoint where
  label : String
  retention : Nat
  audience : Option ℤ
deriving DecidableEq, Repr

/-- The results object (`Scores` in the source). -/
structure Scores where
  matched : List MatchedWord
  enRate : ℤ
  svRate : ℤ
  total : Nat
  forgetting : List ForgetPoint
  audienceRet : ℤ
  falsePosCount : Nat
deriving DecidableEq, Repr

/-- JavaScript `Math.round`: round half up, `⌊q + 1/2⌋`.  On the
rates computed here (multiples of `1/8`, `1/7`, `1/15` of 100) the
IEEE-754 evaluation in the source agrees with exact rational
arithmetic, since no intermediate value lies within float error of a
half-integer except the exactly representable multiples of `12.5`. -/
def jsRound (q : ℚ) : ℤ := ⌊q + 1 / 2⌋

/-- Source: `targets = WORDS.map(w => w.word)` in `submit`. -/
def targets : List String := WORDS.map (fun w => w.word)

/-- Source: `matched = WORDS.map(w => ({...w, recalled: selected.has(w.word)}))`. -/
def matchedOf (S : Finset String) : List MatchedWord :=
  WORDS.map (fun w => ⟨w.word, w.lang, w.pos, decide (w.word ∈ S)⟩)

/-- Source: `falsePosCount = [...selected].filter(w => !targets.includes(w)).length`:
iterating a JS `Set` lists each element once, so this is the size of the
sub-collection of `selected` outside `targets`. -/
def falsePosCountOf (S : Finset String) : Nat :=
  (S.filter (fun w => ¬ w ∈ targets)).card

/-- Source: `en = matched.filter(w => w.lang === "EN")`. -/
def enOf (S : Finset String) : List MatchedWord :=
  (matchedOf S).filter (fun w => w.lang == "EN")

/-- Source: `sv = matched.filter(w => w.lang === "SV")`. -/
def svOf (S : Finset String) : List MatchedWord :=
  (matchedOf S).filter (fun w => w.lang == "SV")

/-- Source: `enRate = Math.round(en.filter(w => w.recalled).length / en.length * 100)`. -/
def enRateOf (S : Finset String) : ℤ :=
  jsRound ((((enOf S).filter (fun w => w.recalled)).length : ℚ)
    / ((enOf S).length : ℚ) * 100)

/-- Source: `svRate = Math.round(sv.filter(w => w.recalled).length / sv.length * 100)`. -/
def svRateOf (S : Finset String) : ℤ :=
  jsRound ((((svOf S).filter (fun w => w.recalled)).length : ℚ)
    / ((svOf S).length : ℚ) * 100)

/-- Source: `total = matched.filter(w => w.recalled).length`. -/
def totalOf (S : Finset String) : Nat :=
  ((matchedOf S).filter (fun w => w.recalled)).length

/-- Source: `audienceRet = Math.round(total / WORDS.length * 100)`. -/
def audienceRetOf (S : Finset String) : ℤ :=
  jsRound ((totalOf S : ℚ) / (WORDS.length : ℚ) * 100)

/-- Source: `forgetting = EBBINGHAUS.map((pt, i) => ({...pt, audience: i === 1 ? audienceRet : null}))`. -/
def forgettingOf (S : Finset String) : List ForgetPoint :=
  EBBINGHAUS.mapIdx (fun i pt =>
    ⟨pt.label, pt.retention, if i = 1 then some (audienceRetOf S) else none⟩)

/-- The scoring computation of `submit`, assembled from its local
constants. -/
def computeScores (S : Finset String) : Scores :=
  ⟨matchedOf S, enRateOf S, svRateOf S, totalOf S, forgettingOf S,
   audienceRetOf S, falsePosCountOf S⟩

/-- The five phases of the app. -/
inductive Phase where
  | intro
  | study
  | distract
  | recall
  | results
deriving DecidableEq, Repr

/-- The mutable state owned by the controller: `phase`, `timer`,
`selected`, `submitted`, `scores` (the JS `Set<string>` is a
`Finset String`). -/
structure AppState where
  phase : Phase
  timer : Nat
  selected : Finset String
  submitted : Bool
  scores : Option Scores
deriving DecidableEq

/-- The initial state: `phase = "intro"`, `timer = 0`, empty selection,
not submitted, no scores. -/
def initState : AppState := ⟨.intro, 0, ∅, false, none⟩

/-- Source: `setPhase` together with the phase effect
`useEffect(() => { if (phase === "study") setTimer(STUDY_TIME);
if (phase === "distract") setTimer(DISTRACT_TIME); }, [phase])`,
taken atomically. -/
def setPhaseWithEffect (p : Phase) (s : AppState) : AppState :=
  { s with
    phase := p
    timer :=
      if p = .study then STUDY_TIME
      else if p = .distract then DISTRACT_TIME
      else s.timer }

/-- The one-second timeout handler: returns unchanged unless the phase
is `study` or `distract` with a positive timer; at `timer === 1` it
advances the phase (`study → distract` or `distract → recall`),
otherwise it decrements the timer. -/
def tick (s : AppState) : AppState :=
  if (s.phase = .study ∨ s.phase = .distract) ∧ 0 < s.timer then
    if s.timer = 1 then
      setPhaseWithEffect (if s.phase = .study then .distract else .recall) s
    else { s with timer := s.timer - 1 }
  else s

/-- Source: `toggleWord`: returns unchanged if `submitted`; deletes the word if
present; otherwise refuses when `next.size >= WORDS.length`; otherwise
inserts. -/
def toggleWord (word : String) (s : AppState) : AppState :=
  if s.submitted then s
  else if word ∈ s.selected then { s with selected := s.selected.erase word }
  else if WORDS.length ≤ s.selected.card then s
  else { s with selected := insert word s.selected }

/-- Source: `submit`: stores the computed scores, sets `submitted`, and moves to
`results`. -/
def submit (s : AppState) : AppState :=
  { s with
    scores := some (computeScores s.selected)
    submitted := true
    phase := .results }

/-- Source: `goHome`: back to `intro` with fresh selection, `submitted` cleared
and scores discarded (the timer cell is not touched). -/
def goHome (s : AppState) : AppState :=
  { s with phase := .intro, selected := ∅, submitted := false, scores := none }

/-- The user/timer events the rendering layer can deliver. -/
inductive Ev where
  | begin
  | tick
  | toggle (word : String)
  | submitClick
  | home

/-- One event step.  The guards record which handler each page wires:
the begin button exists only on the intro page; word tiles invoke
`toggleWord` only on the recall page (the results page wires a no-op
handler); the submit button exists only on the recall page and is
`disabled` when `selected.size === 0`; the home/run-again buttons exist
only on the results page. -/
def step (e : Ev) (s : AppState) : AppState :=
  match e with
  | .begin => if s.phase = .intro then setPhaseWithEffect .study s else s
  | .tick => tick s
  | .toggle w => if s.phase = .recall then toggleWord w s else s
  | .submitClick =>
      if s.phase = .recall ∧ s.selected.card ≠ 0 then submit s else s
  | .home => if s.phase = .results then goHome s else s

/-- The states reachable from `initState` by event steps. -/
inductive Reachable : AppState → Prop where
  | init : Reachable initState
  | next : ∀ {s : AppState} (e : Ev), Reachable s → Reachable (step e s)

/-- JS `sort` with a comparator permutes the array; the random-comparator
`shuffle` is modelled as `mergeSort` under an arbitrary comparator. -/
def shuffle (cmp : WordItem → WordItem → Bool) (arr : List WordItem) :
    List WordItem :=
  arr.mergeSort cmp

/-- The unshuffled grid contents:
`[...WORDS.map(w => ({...w, isTarget: true})),
  ...FALSE_POSITIVES.map(w => ({...w, isTarget: false}))]`. -/
def gridItems : List WordItem :=
  WORDS.map (fun w => ⟨w.word, w.lang, some w.pos, true⟩)
    ++ FALSE_POSITIVES.map (fun d => ⟨d.word, d.lang, none, false⟩)

/-- The memoized shuffled recall grid, for a given comparator outcome. -/
def gridOf (cmp : WordItem → WordItem → Bool) : List WordItem :=
  shuffle cmp gridItems

/-- The selection used by the spec's concrete scenario: the first 8
target texts. -/
def SEL8 : Finset String :=
  {"Apple", "Hund", "Memory", "Blå", "River", "Stjärna", "Garden", "Flicka"}

/-- The target word list has no duplicates. -/
lemma words_nodup : WORDS.Nodup := by decide

/-- Filtering the matched list by `recalled` counts the list entries
whose text lies in the selection. -/
lemma length_filter_recalled (l : List WordEntry) (S : Finset String) :
    ((l.map (fun w =>
        (⟨w.word, w.lang, w.pos, decide (w.word ∈ S)⟩ : MatchedWord))).filter
      (fun m => m.recalled)).length
      = (l.filter (fun w => decide (w.word ∈ S))).length := by
  induction l with
  | nil => rfl
  | cons a t ih => by_cases h : a.word ∈ S <;> simp [h, ih]

/-- Claim C1: for every selection set `S`, the scorer's `total`
(`totalRecalled`) equals the number of target words whose text is a
member of `S`, i.e. the cardinality of the sub-Finset of the 15-word
target list whose texts lie in `S`. -/
theorem totalRecalled_counts_targets (S : Finset String) :
    (computeScores S).total
      = (WORDS.toFinset.filter (fun w => w.word ∈ S)).card := by
  show totalOf S = _
  have h1 : (WORDS.filter (fun w => decide (w.word ∈ S))).Nodup :=
    words_nodup.filter _
  calc totalOf S
      = (WORDS.filter (fun w => decide (w.word ∈ S))).length :=
        length_filter_recalled WORDS S
    _ = (WORDS.filter (fun w => decide (w.word ∈ S))).toFinset.card :=
        (List.toFinset_card_of_nodup h1).symm
    _ = (WORDS.toFinset.filter (fun w => w.word ∈ S)).card := by
        rw [List.toFinset_filter]
        congr 1
        apply Finset.filter_congr
        intro w _
        simp

/-- Claim C2: for every selection set `S`, the scorer's
`falsePosCount` equals the cardinality of `S` minus the target texts:
each selected word that is not the text of any target word counts
exactly once. -/
theorem falsePositives_count_sdiff (S : Finset String) :
    (computeScores S).falsePosCount
      = (S \ (WORDS.map (fun w => w.word)).toFinset).card := by
  show falsePosCountOf S = _
  rw [falsePosCountOf]
  congr 1
  ext w
  simp [targets]

/-- Claim C3, counterexample: in the `study` phase, before submission,
`toggleWord` is not a no-op — toggling `"Apple"` on an empty selection
changes the selection set. -/
theorem toggle_study_phase_not_noop :
    ¬ ((toggleWord "Apple"
          (AppState.mk .study STUDY_TIME ∅ false none)).selected
        = (AppState.mk .study STUDY_TIME ∅ false none).selected) := by
  decide

/-- Claim C3, amended: `toggleWord` is a no-op whenever submission has
occurred (`submitted = true`, which is the case throughout the
`results` phase); in the other phases the function itself has no phase
guard and would flip membership if invoked. -/
theorem toggle_after_submission_noop (s : AppState) (w : String)
    (h : s.submitted = true) : toggleWord w s = s := by
  rw [toggleWord, if_pos h]

/-- Witness for `toggle_after_submission_noop` at a concrete
results-phase state. -/
theorem toggle_after_submission_noop_witness :
    toggleWord "Apple" (AppState.mk .results 1 {"Apple"} true none)
      = AppState.mk .results 1 {"Apple"} true none :=
  toggle_after_submission_noop (AppState.mk .results 1 {"Apple"} true none)
    "Apple" rfl

/-- Claim C4: delivering a submit click in the `recall` phase with an
empty selection is rejected at the boundary (the button is disabled
when `selected.size === 0`): the state is unchanged, so the phase stays
`recall` and no score result is created. -/
theorem submit_empty_selection_rejected (s : AppState)
    (h1 : s.phase = Phase.recall) (h2 : s.selected = ∅) :
    step Ev.submitClick s = s ∧
      (step Ev.submitClick s).phase = Phase.recall ∧
      (step Ev.submitClick s).scores = s.scores := by
  have h3 : step Ev.submitClick s = s := by
    rw [step]
    simp [h2]
  exact ⟨h3, by rw [h3, h1], by rw [h3]⟩

/-- Witness for `submit_empty_selection_rejected` at a concrete
recall-phase state with empty selection. -/
theorem submit_empty_selection_rejected_witness :
    step Ev.submitClick (AppState.mk .recall 1 ∅ false none)
        = AppState.mk .recall 1 ∅ false none ∧
      (step Ev.submitClick (AppState.mk .recall 1 ∅ false none)).phase
        = Phase.recall ∧
      (step Ev.submitClick (AppState.mk .recall 1 ∅ false none)).scores
        = (AppState.mk .recall 1 ∅ false none).scores :=
  submit_empty_selection_rejected (AppState.mk .recall 1 ∅ false none)
    rfl rfl

/-- Claim C10: before submission, toggling a word that is already in
the selection always removes it — the membership test precedes the cap
check, so deselection works even when the selection is at the cap. -/
theorem toggle_selected_word_deselects (s : AppState) (w : String)
    (h1 : s.submitted = false) (h2 : w ∈ s.selected) :
    toggleWord w s = { s with selected := s.selected.erase w } := by
  rw [toggleWord, if_neg (by rw [h1]; exact Bool.false_ne_true), if_pos h2]

/-- A recall-phase state whose selection already holds all 15 target
texts (the cap). -/
def cap15State : AppState :=
  AppState.mk .recall 1
    {"Apple", "Hund", "Memory", "Blå", "River", "Stjärna", "Garden",
     "Flicka", "Thunder", "Skog", "Candle", "Snö", "Journey", "Fågel",
     "Horizon"}
    false none

/-- Witness for `toggle_selected_word_deselects` at the cap: with 15
words selected, toggling the selected word `"Apple"` still removes
it. -/
theorem toggle_selected_word_deselects_witness :
    toggleWord "Apple" cap15State
      = { cap15State with selected := cap15State.selected.erase "Apple" } :=
  toggle_selected_word_deselects cap15State "Apple" rfl (by decide)

/-- Source: `tick` never changes the selection set. -/
lemma tick_selected (s : AppState) : (tick s).selected = s.selected := by
  unfold tick setPhaseWithEffect
  split
  · split <;> rfl
  · rfl

/-- Source: `toggleWord` preserves the selection-size cap. -/
lemma toggleWord_card_le (w : String) (s : AppState)
    (h : s.selected.card ≤ WORDS.length) :
    (toggleWord w s).selected.card ≤ WORDS.length := by
  unfold toggleWord
  split
  · exact h
  · split
    · exact le_trans (Finset.card_erase_le) h
    · split
      · exact h
      · show (insert w s.selected).card ≤ WORDS.length
        have h2 := Finset.card_insert_le w s.selected
        omega

/-- Claim C5: the fixed target list has 15 words; in every reachable
state the selection set has at most that many elements; and toggling a
not-yet-selected word while the selection sits at the cap silently
leaves the state unchanged. -/
theorem selection_size_capped :
    WORDS.length = 15 ∧
      (∀ s : AppState, Reachable s → s.selected.card ≤ WORDS.length) ∧
      (∀ (s : AppState) (w : String), w ∉ s.selected →
        s.selected.card = WORDS.length → toggleWord w s = s) := by
  refine ⟨rfl, fun s hs => ?_, fun s w h1 h2 => ?_⟩
  · induction hs with
    | init => simp [initState]
    | next e hr ih =>
      cases e with
      | begin =>
        show (if _ then setPhaseWithEffect .study _ else _).selected.card ≤ _
        split
        · exact ih
        · exact ih
      | tick =>
        show (tick _).selected.card ≤ _
        rw [tick_selected]
        exact ih
      | toggle w =>
        show (if _ then toggleWord w _ else _).selected.card ≤ _
        split
        · exact toggleWord_card_le w _ ih
        · exact ih
      | submitClick =>
        show (if _ then submit _ else _).selected.card ≤ _
        split
        · exact ih
        · exact ih
      | home =>
        show (if _ then goHome _ else _).selected.card ≤ _
        split
        · simp [goHome]
        · exact ih
  · have hcap : WORDS.length ≤ s.selected.card := le_of_eq h2.symm
    simp [toggleWord, h1, hcap]

/-- Witness for `selection_size_capped`: the initial state satisfies
the cap, and toggling the unselected decoy `"Ocean"` on a state with
all 15 targets selected changes nothing. -/
theorem selection_size_capped_witness :
    initState.selected.card ≤ WORDS.length ∧
      toggleWord "Ocean" cap15State = cap15State :=
  ⟨selection_size_capped.2.1 initState Reachable.init,
   selection_size_capped.2.2 cap15State "Ocean" (by decide) (by decide)⟩

/-- Claim C6: the scorer's retention percentage is the round-half-up of
`100 * totalRecalled / |targets|`; concretely, selecting exactly the
first 8 target texts yields `total = 8`, retention `53`, and no false
positives. -/
theorem retention_percentage_round_half_up :
    (∀ S : Finset String,
        (computeScores S).audienceRet
          = jsRound (100 * ((computeScores S).total : ℚ)
              / ((WORDS.length : Nat) : ℚ))) ∧
      (computeScores SEL8).total = 8 ∧
      (computeScores SEL8).audienceRet = 53 ∧
      (computeScores SEL8).falsePosCount = 0 := by
  refine ⟨fun S => ?_, by decide, ?_, by decide⟩
  · show audienceRetOf S
      = jsRound (100 * ((totalOf S : Nat) : ℚ) / ((WORDS.length : Nat) : ℚ))
    rw [audienceRetOf]
    congr 1
    ring
  · show audienceRetOf SEL8 = 53
    have ht : totalOf SEL8 = 8 := by decide
    rw [audienceRetOf, ht]
    show jsRound ((8 : Nat) / ((15 : Nat) : ℚ) * 100) = 53
    rw [jsRound]
    rw [Int.floor_eq_iff]
    norm_num

/-- Running `k` ticks while more than `k` seconds remain in `study` or
`distract` just counts the timer down by `k`. -/
lemma tick_run (k : Nat) (s : AppState)
    (hp : s.phase = Phase.study ∨ s.phase = Phase.distract)
    (hk : k < s.timer) :
    tick^[k] s = { s with timer := s.timer - k } := by
  induction k generalizing s with
  | zero => rfl
  | succ k ih =>
    have h1 : tick s = { s with timer := s.timer - 1 } := by
      rw [tick, if_pos ⟨hp, by omega⟩, if_neg (by omega)]
    have h2 : tick^[k] ({ s with timer := s.timer - 1 } : AppState)
        = { s with timer := s.timer - 1 - k } :=
      ih { s with timer := s.timer - 1 } hp (by show k < s.timer - 1; omega)
    rw [Function.iterate_succ_apply, h1, h2]
    have h3 : s.timer - 1 - k = s.timer - (k + 1) := by omega
    rw [h3]

/-- From a study-phase state with a full study timer, the state after
the full study countdown. -/
lemma study_run (s : AppState)
    (hp : s.phase = Phase.study) (ht : s.timer = STUDY_TIME) :
    tick^[STUDY_TIME] s
      = { s with phase := Phase.distract, timer := DISTRACT_TIME } := by
  have e1 : STUDY_TIME = 39 + 1 := rfl
  have e2 : STUDY_TIME - 39 = 1 := rfl
  have h1 : tick^[39] s = { s with timer := 1 } := by
    rw [tick_run 39 s (Or.inl hp) (by omega), ht, e2]
  have h2 : tick ({ s with timer := 1 } : AppState)
      = { s with phase := Phase.distract, timer := DISTRACT_TIME } := by
    simp [tick, setPhaseWithEffect, hp]
  rw [e1, Function.iterate_succ_apply', h1, h2]

/-- Claim C7: from the start of the study countdown, the phase stays
`study` for the first `STUDY_TIME - 1` ticks, becomes `distract` with a
reloaded `DISTRACT_TIME` timer after exactly `STUDY_TIME` ticks, stays
`distract` until `DISTRACT_TIME` further ticks have elapsed, and then
becomes `recall`; a tick in any phase other than `study`/`distract`
changes nothing, and a tick changes the phase only when the timer shows
the final second of `study` or `distract`. -/
theorem countdown_phase_transitions :
    (∀ s : AppState, s.phase = Phase.study → s.timer = STUDY_TIME →
      (∀ k, k < STUDY_TIME → (tick^[k] s).phase = Phase.study) ∧
        (tick^[STUDY_TIME] s).phase = Phase.distract ∧
        (tick^[STUDY_TIME] s).timer = DISTRACT_TIME ∧
        (∀ k, k < DISTRACT_TIME →
          (tick^[STUDY_TIME + k] s).phase = Phase.distract) ∧
        (tick^[STUDY_TIME + DISTRACT_TIME] s).phase = Phase.recall) ∧
      (∀ s : AppState, s.phase ≠ Phase.study → s.phase ≠ Phase.distract →
        tick s = s) ∧
      (∀ s : AppState, (tick s).phase ≠ s.phase →
        s.timer = 1 ∧ (s.phase = Phase.study ∨ s.phase = Phase.distract)) := by
  refine ⟨fun s hp ht => ?_, fun s h1 h2 => ?_, fun s h => ?_⟩
  · have hrun := study_run s hp ht
    have hmid : ∀ k, k < DISTRACT_TIME →
        tick^[STUDY_TIME + k] s
          = { s with phase := Phase.distract, timer := DISTRACT_TIME - k } := by
      intro k hk
      rw [Nat.add_comm, Function.iterate_add_apply, hrun,
        tick_run k _ (Or.inr rfl) (by show k < DISTRACT_TIME; omega)]
    refine ⟨fun k hk => ?_, by rw [hrun], by rw [hrun], fun k hk => ?_, ?_⟩
    · rw [tick_run k s (Or.inl hp) (by omega)]
      exact hp
    · rw [hmid k hk]
    · have e2 : STUDY_TIME + DISTRACT_TIME = (STUDY_TIME + 299) + 1 := rfl
      have e3 : DISTRACT_TIME - 299 = 1 := rfl
      have h4 : tick ({ s with phase := Phase.distract, timer := 1 } :
            AppState)
          = { s with phase := Phase.recall, timer := 1 } := by
        simp [tick, setPhaseWithEffect]
      rw [e2, Function.iterate_succ_apply', hmid 299 (by omega), e3, h4]
  · rw [tick, if_neg]
    intro hc
    rcases hc.1 with h | h
    · exact h1 h
    · exact h2 h
  · by_contra hc
    rw [tick] at h
    rw [not_and_or] at hc
    rcases Decidable.em ((s.phase = Phase.study ∨ s.phase = Phase.distract)
        ∧ 0 < s.timer) with hg | hg
    · rw [if_pos hg] at h
      rcases Decidable.em (s.timer = 1) with h1 | h1
      · rcases hc with hc | hc
        · exact hc h1
        · exact hc hg.1
      · rw [if_neg h1] at h
        exact h rfl
    · rw [if_neg hg] at h
      exact h rfl

/-- Witness for `countdown_phase_transitions` at the concrete state
entered by pressing the begin button: after 40 ticks the phase is
`distract` with a 300-second timer, after 340 it is `recall`; a tick in
`intro` is inert. -/
theorem countdown_phase_transitions_witness :
    ((tick^[STUDY_TIME]
        (AppState.mk .study STUDY_TIME ∅ false none)).phase
      = Phase.distract ∧
      (tick^[STUDY_TIME]
        (AppState.mk .study STUDY_TIME ∅ false none)).timer
        = DISTRACT_TIME ∧
      (tick^[STUDY_TIME + DISTRACT_TIME]
        (AppState.mk .study STUDY_TIME ∅ false none)).phase
        = Phase.recall) ∧
      tick initState = initState ∧
      ((tick (AppState.mk .study 1 ∅ false none)).phase
          ≠ (AppState.mk .study 1 ∅ false none).phase →
        (AppState.mk .study 1 ∅ false none).timer = 1 ∧
          ((AppState.mk .study 1 ∅ false none).phase = Phase.study ∨
            (AppState.mk .study 1 ∅ false none).phase = Phase.distract)) := by
  have h := countdown_phase_transitions.1
    (AppState.mk .study STUDY_TIME ∅ false none) rfl rfl
  exact ⟨⟨h.2.1, h.2.2.1, h.2.2.2.2⟩,
    countdown_phase_transitions.2.1 initState (by decide) (by decide),
    fun hne => countdown_phase_transitions.2.2 _ hne⟩

/-- Claim C8: for every comparator outcome, the shuffled recall grid is
a permutation of the tagged concatenation of the target and decoy
lists, with length `|WORDS| + |FALSE_POSITIVES| = 25`. -/
theorem grid_is_permutation (cmp : WordItem → WordItem → Bool) :
    (gridOf cmp).Perm gridItems ∧
      (gridOf cmp).length = WORDS.length + FALSE_POSITIVES.length ∧
      WORDS.length + FALSE_POSITIVES.length = 25 := by
  have hp : (gridOf cmp).Perm gridItems := List.mergeSort_perm gridItems cmp
  refine ⟨hp, ?_, by decide⟩
  rw [hp.length_eq, gridItems, List.length_append, List.length_map,
    List.length_map]

/-- Source: `jsRound` of `k / n * 100` stays within `[0, 100]` when `k ≤ n`. -/
lemma jsRound_ratio_bounds (k n : Nat) (h1 : 0 < n) (h2 : k ≤ n) :
    0 ≤ jsRound ((k : ℚ) / (n : ℚ) * 100) ∧
      jsRound ((k : ℚ) / (n : ℚ) * 100) ≤ 100 := by
  have hn : (0 : ℚ) < (n : ℚ) := by exact_mod_cast h1
  have hq0 : (0 : ℚ) ≤ (k : ℚ) / (n : ℚ) * 100 := by positivity
  have hq1 : (k : ℚ) / (n : ℚ) * 100 ≤ 100 := by
    have hle : (k : ℚ) / (n : ℚ) ≤ 1 := by
      rw [div_le_one hn]
      exact_mod_cast h2
    nlinarith
  constructor
  · rw [jsRound]
    apply Int.le_floor.mpr
    push_cast
    linarith
  · rw [jsRound]
    have hm : ⌊(k : ℚ) / (n : ℚ) * 100 + 1 / 2⌋ ≤ ⌊(100 : ℚ) + 1 / 2⌋ :=
      Int.floor_le_floor (by linarith)
    have h100 : ⌊(100 : ℚ) + 1 / 2⌋ = 100 := by
      rw [Int.floor_eq_iff]
      norm_num
    omega

/-- Claim C9: for every selection set, both per-language rates produced
by the scorer are integers in `[0, 100]`, and the two language
partitions of the fixed word list are non-empty (8 EN and 7 SV words),
so the divisions have non-zero denominators. -/
theorem language_rates_bounded :
    (∀ S : Finset String,
        0 ≤ (computeScores S).enRate ∧ (computeScores S).enRate ≤ 100 ∧
          0 ≤ (computeScores S).svRate ∧ (computeScores S).svRate ≤ 100) ∧
      (WORDS.filter (fun w => w.lang == "EN")).length = 8 ∧
      (WORDS.filter (fun w => w.lang == "SV")).length = 7 := by
  refine ⟨fun S => ?_, by decide, by decide⟩
  have hen : (enOf S).length = 8 := rfl
  have hsv : (svOf S).length = 7 := rfl
  have hle : ((enOf S).filter (fun w => w.recalled)).length ≤ 8 := by
    rw [← hen]
    exact List.length_filter_le _ _
  have hls : ((svOf S).filter (fun w => w.recalled)).length ≤ 7 := by
    rw [← hsv]
    exact List.length_filter_le _ _
  have he := jsRound_ratio_bounds
    ((enOf S).filter (fun w => w.recalled)).length 8 (by omega) hle
  have hs := jsRound_ratio_bounds
    ((svOf S).filter (fun w => w.recalled)).length 7 (by omega) hls
  have e1 : (computeScores S).enRate
      = jsRound ((((enOf S).filter (fun w => w.recalled)).length : ℚ)
          / ((8 : Nat) : ℚ) * 100) := by
    show enRateOf S = _
    rw [enRateOf, hen]
  have e2 : (computeScores S).svRate
      = jsRound ((((svOf S).filter (fun w => w.recalled)).length : ℚ)
          / ((7 : Nat) : ℚ) * 100) := by
    show svRateOf S = _
    rw [svRateOf, hsv]
  rw [e1, e2]
  exact ⟨he.1, he.2, hs.1, hs.2⟩

end ActiveRecall
